import Mathlib

/-!
Shallow embedding of the Immo Eliza data-cleaning pipeline
(src/scr/cleaning.py, function clean_immo_data).

The pipeline is a sequence of pandas DataFrame transformations.  We embed a
DataFrame as a list of rows over the fixed column set the script touches
(property_id, price, living_area, number_rooms, facades, postal_code,
province, plus the derived price_per_m2), together with the pandas row
index label carried by every row (read_csv labels rows 0,1,2,...; none of
the operations used by the script reset or reorder the index).

Cell values are modelled by an inductive type with a null marker (NaN/NA),
strings, rational numbers (an exact idealisation of float64), and signed
infinities.  Column dtypes matter only for step 1 (select_dtypes of object
columns), so the pipeline takes one object-dtype flag per input column.

Pandas/NumPy behaviours embedded from the library semantics:
  - Series.astype(str) renders NaN as the literal string "nan".
  - Series.str.strip strips Python whitespace at both ends.
  - Series.replace maps exact matches, here the empty string to NaN.
  - DataFrame.drop_duplicates(keep=first) treats NaN keys as equal to each
    other, so at most one NaN-keyed row survives.
  - pd.to_numeric(errors=coerce) turns unparsable strings into NaN.
  - Series.astype(Int64) maps NaN to NA, integral floats to integers, and
    raises on non-integral floats and on strings that are not plain
    integer literals; a subsequent astype(str) renders NA as the string
    with the letters N and A between angle brackets.
  - Float division: NaN propagates; x/0 is plus or minus infinity for
    nonzero x and NaN for x = 0.
  - Series.quantile drops NaN, sorts, and linearly interpolates;
    Series.between is inclusive on both ends and false on NaN;
    Series.where replaces cells with a false mask by NaN.
  - DataFrame.dropna(subset) removes rows with NaN in a subset column.
-/

namespace ImmoClean

/-- A cell value of a pandas DataFrame.  Val.null is the uniform missing
marker (NaN/None/NA), Val.num an exact rational idealising float64, and
Val.inf a signed infinity (true = positive). -/
inductive Val : Type where
  | null : Val
  | str : String → Val
  | num : ℚ → Val
  | inf : Bool → Val
deriving DecidableEq, Repr

/-- pandas isna on one cell: only the null marker is missing (strings and
infinities are not). -/
def Val.isNull : Val → Bool
  | Val.null => true
  | _ => false

/-- Python str.strip whitespace set: space, tab, newline, carriage return,
vertical tab, form feed. -/
def isPyWs (c : Char) : Bool :=
  c = ' ' || c = '\t' || c = '\n' || c = '\r' || c = Char.ofNat 11 || c = Char.ofNat 12

/-- Python str.strip: drop whitespace from both ends. -/
def pyStrip (s : String) : String :=
  String.mk (((s.toList.dropWhile isPyWs).reverse.dropWhile isPyWs).reverse)

/-- Numeric value of a decimal digit character. -/
def digitVal (c : Char) : Nat := c.toNat - 48

/-- True when every character is a decimal digit. -/
def allDigits (cs : List Char) : Bool := cs.all Char.isDigit

/-- Value of a list of decimal digit characters, most significant first. -/
def digitsToNat (cs : List Char) : Nat :=
  cs.foldl (fun a c => a * 10 + digitVal c) 0

/-- Python int(s) on a stripped string: an optional sign followed by one or
more decimal digits; anything else fails.  This is the conversion NumPy and
pandas apply when casting a string cell to Int64. -/
def parsePyInt (s : String) : Option Int :=
  match s.toList with
  | [] => none
  | '-' :: cs =>
    if cs.isEmpty then none
    else if allDigits cs then some (-(digitsToNat cs : Int)) else none
  | '+' :: cs =>
    if cs.isEmpty then none
    else if allDigits cs then some (digitsToNat cs : Int) else none
  | cs => if allDigits cs then some (digitsToNat cs : Int) else none

/-- Attach the sign parsed before a decimal literal. -/
def mkNum (sgn : Bool) (m : ℚ) : Val := Val.num (if sgn then m else -m)

/-- Decimal part of the float grammar: digits, an optional fraction and an
optional exponent, as accepted by the pandas numeric parser. -/
def parseDecimal (sgn : Bool) (cs : List Char) : Option Val :=
  let ipr := cs.span Char.isDigit
  let fpr := match ipr.2 with
    | '.' :: r => r.span Char.isDigit
    | _ => ([], ipr.2)
  if ipr.1.isEmpty && fpr.1.isEmpty then none
  else
    let mant : ℚ :=
      (digitsToNat ipr.1 : ℚ) + (digitsToNat fpr.1 : ℚ) / (10 : ℚ) ^ fpr.1.length
    match fpr.2 with
    | [] => some (mkNum sgn mant)
    | 'e' :: r3 =>
      let er := match r3 with
        | '-' :: t => (false, t)
        | '+' :: t => (true, t)
        | t => (true, t)
      if er.2.isEmpty then none
      else if allDigits er.2 then
        let e := digitsToNat er.2
        some (mkNum sgn (if er.1 then mant * (10 : ℚ) ^ e else mant / (10 : ℚ) ^ e))
      else none
    | _ => none

/-- The string-to-float conversion behind pd.to_numeric: case-insensitive
nan / inf / infinity with optional sign, else a decimal literal with
optional fraction and exponent.  A nan literal parses to the null marker
(it is NaN). -/
def parsePyFloat (s : String) : Option Val :=
  match s.toLower.toList with
  | [] => none
  | all =>
    let sr := match all with
      | '-' :: r => (false, r)
      | '+' :: r => (true, r)
      | r => (true, r)
    if sr.2 = ['n', 'a', 'n'] then some Val.null
    else if sr.2 = ['i', 'n', 'f'] || sr.2 = "infinity".toList then some (Val.inf sr.1)
    else parseDecimal sr.1 sr.2

/-- Smallest power of ten (from k up, within fuel) clearing the denominator
of q, used to print a terminating decimal. -/
def scaleAux (q : ℚ) (k fuel : Nat) : Option Nat :=
  match fuel with
  | 0 => none
  | fuel + 1 =>
    if (q * (10 : ℚ) ^ k).den = 1 then some k else scaleAux q (k + 1) fuel

/-- Left-pad a digit string with zeros to width k. -/
def padZeros (s : String) (k : Nat) : String :=
  String.mk (List.replicate (k - s.length) '0') ++ s

/-- Python str() of a float, under the exact-rational idealisation: an
integral value prints with a trailing .0, a terminating decimal prints
exactly (shortest form), and a non-terminating rational (unreachable from
float64 data) falls back to a fraction rendering.  No claim depends on
this rendering for non-integral values. -/
def floatRepr (q : ℚ) : String :=
  if q.den = 1 then toString q.num ++ ".0"
  else
    match scaleAux q 1 60 with
    | some k =>
      let sgn := if q < 0 then "-" else ""
      let n : Nat := ((|q| * (10 : ℚ) ^ k).num).toNat
      sgn ++ toString (n / 10 ^ k) ++ "." ++ padZeros (toString (n % 10 ^ k)) k
    | none => toString q.num ++ "/" ++ toString q.den

/-- pandas Series.astype(str) on one cell: NaN renders as the literal
string "nan", infinities as "inf" / "-inf", floats via str(). -/
def str_of_val : Val → String
  | Val.null => "nan"
  | Val.str s => s
  | Val.num q => floatRepr q
  | Val.inf b => if b then "inf" else "-inf"

/-- Step 1 on one cell of an object-dtype column:
astype(str).str.strip().replace(empty string -> NaN), from line 27 of the
source. -/
def cleanStrCell (v : Val) : Val :=
  let s := pyStrip (str_of_val v)
  if s = "" then Val.null else Val.str s

/-- One row of the DataFrame.  index is the pandas row index label
(read_csv labels the input rows 0,1,2,... and no pipeline operation
changes it).  price_per_m2 does not exist in the input table; the field is
a placeholder that step 5 overwrites before any read. -/
structure Row : Type where
  index : Nat
  property_id : Val
  price : Val
  living_area : Val
  number_rooms : Val
  facades : Val
  postal_code : Val
  province : Val
  price_per_m2 : Val
deriving DecidableEq, Repr

/-- Which input columns have pandas object dtype (true = object).  Step 1
(select_dtypes include object) applies exactly to the flagged columns. -/
structure Dtypes : Type where
  property_id : Bool
  price : Bool
  living_area : Bool
  number_rooms : Bool
  facades : Bool
  postal_code : Bool
  province : Bool
deriving DecidableEq, Repr

/-- Apply the step-1 cell cleaning when the column has object dtype. -/
def applyIfObj (b : Bool) (v : Val) : Val := if b then cleanStrCell v else v

/-- Step 1 (lines 26-27): strip whitespace in every object-dtype column,
mapping values that become empty to NaN. -/
def step1Row (dt : Dtypes) (r : Row) : Row :=
  { r with
    property_id := applyIfObj dt.property_id r.property_id
    price := applyIfObj dt.price r.price
    living_area := applyIfObj dt.living_area r.living_area
    number_rooms := applyIfObj dt.number_rooms r.number_rooms
    facades := applyIfObj dt.facades r.facades
    postal_code := applyIfObj dt.postal_code r.postal_code
    province := applyIfObj dt.province r.province }

/-- Worker for drop_duplicates: keep a row when its key has not been seen
yet.  pandas hashes NaN keys to a single slot, so Val.null keys compare
equal to each other, exactly as decidable equality on Val does. -/
def dropDupAux (seen : List Val) : List Row → List Row
  | [] => []
  | r :: rs =>
    if r.property_id ∈ seen then dropDupAux seen rs
    else r :: dropDupAux (r.property_id :: seen) rs

/-- Step 2 (line 32): df.drop_duplicates(subset=[property_id]), keeping the
first occurrence of each key in input order. -/
def drop_duplicates (rows : List Row) : List Row := dropDupAux [] rows

/-- pd.to_numeric(errors=coerce) on one cell (line 39): strings parse via
the float grammar or coerce to NaN; numbers, infinities and NaN pass
through. -/
def to_numeric_cell : Val → Val
  | Val.str s => (parsePyFloat s).getD Val.null
  | v => v

/-- Lines 42-43: postal_code astype(Int64).astype(str) on one cell.  NaN
becomes NA and then the NA placeholder string; an integral float becomes
its integer then decimal string; a non-integral float raises (TypeError:
cannot safely cast); a string must be a plain integer literal, else the
cast raises (ValueError); an infinity raises.  none models the raised
exception. -/
def astype_Int64_str : Val → Option Val
  | Val.null => some (Val.str "<NA>")
  | Val.num q => if q.den = 1 then some (Val.str (toString q.num)) else none
  | Val.inf _ => none
  | Val.str s => (parsePyInt s).map (fun n => Val.str (toString n))

/-- Step 3 (lines 37-43): coerce the four numeric columns, then normalize
postal_code; a raising postal cast aborts the pipeline. -/
def step3Row (r : Row) : Option Row :=
  match astype_Int64_str r.postal_code with
  | none => none
  | some pc =>
    some { r with
      price := to_numeric_cell r.price
      living_area := to_numeric_cell r.living_area
      number_rooms := to_numeric_cell r.number_rooms
      facades := to_numeric_cell r.facades
      postal_code := pc }

/-- Column-wise fallible map: pandas applies the cast to every cell and the
first failure raises out of the whole pipeline call. -/
def mapOption (f : α → Option β) : List α → Option (List β)
  | [] => some []
  | a :: as =>
    match f a, mapOption f as with
    | some b, some bs => some (b :: bs)
    | _, _ => none

/-- Line 48: df.province.replace(empty string -> NaN) on one cell. -/
def provinceReplaceEmpty (v : Val) : Val :=
  if v = Val.str "" then Val.null else v

/-- Step 4 (lines 48-49): normalize empty provinces to NaN, then keep rows
whose province is not NaN. -/
def step4 (rows : List Row) : List Row :=
  (rows.map (fun r => { r with province := provinceReplaceEmpty r.province })).filter
    (fun r => !r.province.isNull)

/-- IEEE float division as performed by pandas on two cells (line 54): NaN
propagates; x/0 is a signed infinity for x nonzero and NaN for x = 0;
finite/inf is zero; inf/finite stays infinite; inf/inf is NaN.  String
operands cannot reach this point (step 3 coerced both columns). -/
def valDiv : Val → Val → Val
  | Val.num a, Val.num b =>
    if b = 0 then (if a = 0 then Val.null else Val.inf (decide (0 < a)))
    else Val.num (a / b)
  | Val.num _, Val.inf _ => Val.num 0
  | Val.inf s, Val.num b =>
    if b = 0 then Val.inf s else Val.inf (s == decide (0 ≤ b))
  | Val.inf _, Val.inf _ => Val.null
  | _, _ => Val.null

/-- Step 5 (line 54): df.price_per_m2 = df.price / df.living_area. -/
def step5Row (r : Row) : Row :=
  { r with price_per_m2 := valDiv r.price r.living_area }

/-- Total order used by NumPy when sorting a float column with infinities:
minus infinity below all numbers below plus infinity.  NaN never reaches
the sort (quantile drops it first); comparisons on NaN are false, matching
Series.between. -/
def vLeB : Val → Val → Bool
  | Val.inf false, Val.inf _ => true
  | Val.inf false, Val.num _ => true
  | Val.num _, Val.inf true => true
  | Val.num a, Val.num b => decide (a ≤ b)
  | Val.inf true, Val.inf true => true
  | _, _ => false

/-- IEEE negation on the extended values (NaN stays NaN). -/
def vNeg : Val → Val
  | Val.num a => Val.num (-a)
  | Val.inf s => Val.inf (!s)
  | _ => Val.null

/-- IEEE addition on the extended values: NaN propagates, opposite
infinities give NaN. -/
def vAdd : Val → Val → Val
  | Val.num a, Val.num b => Val.num (a + b)
  | Val.inf s, Val.num _ => Val.inf s
  | Val.num _, Val.inf s => Val.inf s
  | Val.inf s, Val.inf t => if s = t then Val.inf s else Val.null
  | _, _ => Val.null

/-- IEEE subtraction on the extended values. -/
def vSub (a b : Val) : Val := vAdd a (vNeg b)

/-- IEEE scalar multiplication c * v: zero times infinity is NaN. -/
def vScale (c : ℚ) : Val → Val
  | Val.num a => Val.num (c * a)
  | Val.inf s => if c = 0 then Val.null else if 0 < c then Val.inf s else Val.inf (!s)
  | _ => Val.null

/-- Stable insertion into a sorted list, the building block of the sort
used for quantiles. -/
def insertSorted (v : Val) : List Val → List Val
  | [] => [v]
  | x :: xs => if vLeB v x then v :: x :: xs else x :: insertSorted v xs

/-- Ascending sort of a float column (insertion sort; it computes the same
sorted sequence as the NumPy sort on the NaN-free columns quantile feeds
it). -/
def sortVals (vs : List Val) : List Val := vs.foldr insertSorted []

/-- Floor of a nonnegative rational as a natural number (numerator
integer-divided by denominator); quantile positions are nonnegative. -/
def qFloorNat (q : ℚ) : Nat := q.num.toNat / q.den

/-- Series.quantile(q) with the default linear interpolation (lines
60-61): drop NaN, sort ascending, take position q*(n-1) and interpolate
linearly between the neighbouring order statistics; NaN on an empty
column. -/
def quantileV (q : ℚ) (vals : List Val) : Val :=
  let xs := sortVals (vals.filter (fun v => !v.isNull))
  if xs.isEmpty then Val.null
  else
    let pos : ℚ := q * ((xs.length : ℚ) - 1)
    let i : Nat := qFloorNat pos
    let g : ℚ := pos - (i : ℚ)
    match xs[i]?, xs[i + 1]? with
    | some a, some b => vAdd a (vScale g (vSub b a))
    | some a, none => a
    | _, _ => Val.null

/-- Lower IQR fence q1 - 1.5*(q3 - q1) of a column (lines 60-63). -/
def iqrLower (vals : List Val) : Val :=
  vSub (quantileV (1 / 4) vals)
    (vScale (3 / 2) (vSub (quantileV (3 / 4) vals) (quantileV (1 / 4) vals)))

/-- Upper IQR fence q3 + 1.5*(q3 - q1) of a column (lines 60-64). -/
def iqrUpper (vals : List Val) : Val :=
  vAdd (quantileV (3 / 4) vals)
    (vScale (3 / 2) (vSub (quantileV (3 / 4) vals) (quantileV (1 / 4) vals)))

/-- series.where(series.between(lower, upper)) on one cell (line 65): keep
the value when it lies inside the inclusive fences of its column, else
NaN; NaN itself fails between and stays NaN. -/
def clip (vals : List Val) (v : Val) : Val :=
  if vLeB (iqrLower vals) v && vLeB v (iqrUpper vals) then v else Val.null

/-- remove_outliers (lines 59-65): whole-column IQR filter. -/
def remove_outliers (vals : List Val) : List Val := vals.map (clip vals)

/-- Rewrite the two filtered columns of a row. -/
def setPriceArea (r : Row) (p a : Val) : Row :=
  { r with price := p, living_area := a }

/-- Steps 6 and 7 (lines 67-71): filter the price column, filter the
living_area column (both fences computed on the full table, before any row
removal), then dropna on the two columns. -/
def step67 (rows : List Row) : List Row :=
  let newP := remove_outliers (rows.map Row.price)
  let newA := remove_outliers (rows.map Row.living_area)
  ((rows.zip (newP.zip newA)).map (fun x => setPriceArea x.1 x.2.1 x.2.2)).filter
    (fun r => !r.price.isNull && !r.living_area.isNull)

/-- clean_immo_data (lines 8-73): the full pipeline.  none models an
exception escaping the call (only the postal_code cast can raise). -/
def clean_immo_data (dt : Dtypes) (rows : List Row) : Option (List Row) :=
  let r1 := rows.map (step1Row dt)
  let r2 := drop_duplicates r1
  (mapOption step3Row r2).map (fun r3 => step67 ((step4 r3).map step5Row))

/-- Specification-side restatement of keep-first deduplication: keep the
head and recursively drop every later row sharing its key.  Stated from
the spec (section 4.2) to compare with drop_duplicates. -/
def keepFirsts : List Row → List Row
  | [] => []
  | r :: rs => r :: keepFirsts (rs.filter (fun x => decide (x.property_id ≠ r.property_id)))
termination_by l => l.length
decreasing_by
  simp only [List.length_cons]
  exact Nat.lt_succ_of_le (List.length_filter_le _ _)

/-- A well-formed sample row used by the concrete counterexamples and
witnesses. -/
def row0 : Row :=
  { index := 0
    property_id := Val.str "A"
    price := Val.num 100
    living_area := Val.num 50
    number_rooms := Val.null
    facades := Val.null
    postal_code := Val.null
    province := Val.str "Liege"
    price_per_m2 := Val.null }

/-- Sample dtype assignment: every column numeric (non-object). -/
def dt0 : Dtypes :=
  { property_id := false
    price := false
    living_area := false
    number_rooms := false
    facades := false
    postal_code := false
    province := false }

attribute [local semireducible] Rat.add Rat.sub Rat.mul Rat.inv

lemma isNull_eq_false_iff (v : Val) : v.isNull = false ↔ v ≠ Val.null := by
  cases v <;> simp [Val.isNull]

lemma vLeB_null_right (x : Val) : vLeB x Val.null = false := by
  cases x with
  | inf b => cases b <;> rfl
  | _ => rfl

lemma clip_null (vals : List Val) : clip vals Val.null = Val.null := by
  unfold clip
  rw [vLeB_null_right]
  simp

lemma clip_of_not_null {vals : List Val} {v : Val} (h : (clip vals v).isNull = false) :
    clip vals v = v ∧ (vLeB (iqrLower vals) v && vLeB v (iqrUpper vals)) = true := by
  unfold clip at h ⊢
  by_cases hc : (vLeB (iqrLower vals) v && vLeB v (iqrUpper vals)) = true
  · rw [if_pos hc]
    exact ⟨rfl, hc⟩
  · rw [if_neg hc] at h
    simp [Val.isNull] at h

lemma setPriceArea_self (r : Row) : setPriceArea r r.price r.living_area = r := rfl

/-- Structural form of steps 6 and 7: an element-wise rewrite of the table
followed by a filter. -/
lemma step67_eq (rows : List Row) :
    step67 rows =
      (rows.map (fun r =>
        setPriceArea r (clip (rows.map Row.price) r.price)
          (clip (rows.map Row.living_area) r.living_area))).filter
        (fun r => !r.price.isNull && !r.living_area.isNull) := by
  simp only [step67, remove_outliers]
  have h1 : (rows.map Row.price).map (clip (rows.map Row.price)) =
      rows.map (fun r => clip (rows.map Row.price) r.price) := by
    rw [List.map_map]; rfl
  have h2 : (rows.map Row.living_area).map (clip (rows.map Row.living_area)) =
      rows.map (fun r => clip (rows.map Row.living_area) r.living_area) := by
    rw [List.map_map]; rfl
  rw [h1, h2, List.zip_map']
  have h3 := List.zip_map' id
    (fun r => (clip (rows.map Row.price) r.price, clip (rows.map Row.living_area) r.living_area))
    rows
  rw [List.map_id] at h3
  rw [h3, List.map_map]
  rfl

/-- A row surviving steps 6 and 7 is an unchanged row of the incoming
table, with non-null price and living_area lying inside the fences that
were computed over the whole incoming table. -/
lemma mem_step67 {rows : List Row} {r : Row} (h : r ∈ step67 rows) :
    r ∈ rows ∧ r.price.isNull = false ∧ r.living_area.isNull = false ∧
      (vLeB (iqrLower (rows.map Row.price)) r.price &&
        vLeB r.price (iqrUpper (rows.map Row.price))) = true ∧
      (vLeB (iqrLower (rows.map Row.living_area)) r.living_area &&
        vLeB r.living_area (iqrUpper (rows.map Row.living_area))) = true := by
  rw [step67_eq] at h
  obtain ⟨hmem, hpred⟩ := List.mem_filter.mp h
  obtain ⟨r0, hr0, heq⟩ := List.mem_map.mp hmem
  rw [Bool.and_eq_true, Bool.not_eq_true', Bool.not_eq_true'] at hpred
  subst heq
  simp only [setPriceArea] at hpred ⊢
  have hp := clip_of_not_null hpred.1
  have ha := clip_of_not_null hpred.2
  rw [hp.1, ha.1] at hpred ⊢
  exact ⟨hr0, hpred.1, hpred.2, hp.2, ha.2⟩

lemma dropDupAux_sublist (seen : List Val) (rows : List Row) :
    List.Sublist (dropDupAux seen rows) rows := by
  induction rows generalizing seen with
  | nil => simp [dropDupAux]
  | cons r rs ih =>
    unfold dropDupAux
    by_cases hc : r.property_id ∈ seen
    · rw [if_pos hc]
      exact (ih seen).trans (List.sublist_cons_self r rs)
    · rw [if_neg hc]
      exact (ih (r.property_id :: seen)).cons₂ r

lemma dropDupAux_eq_keepFirsts (seen : List Val) (rows : List Row) :
    dropDupAux seen rows =
      keepFirsts (rows.filter (fun x => decide (x.property_id ∉ seen))) := by
  induction rows generalizing seen with
  | nil => simp [dropDupAux, keepFirsts]
  | cons r rs ih =>
    unfold dropDupAux
    by_cases hc : r.property_id ∈ seen
    · rw [if_pos hc]
      rw [List.filter_cons_of_neg (by simpa using hc)]
      exact ih seen
    · rw [if_neg hc]
      rw [List.filter_cons_of_pos (by simpa using hc)]
      rw [keepFirsts, ih (r.property_id :: seen)]
      have hpr : rs.filter (fun x => decide (x.property_id ∉ r.property_id :: seen)) =
          rs.filter (fun a =>
            decide (a.property_id ≠ r.property_id) && decide (a.property_id ∉ seen)) := by
        apply List.filter_congr
        intro x _
        simp [List.mem_cons, not_or]
      rw [List.filter_filter, hpr]

lemma dropDupAux_eq_nil (seen : List Val) (rows : List Row)
    (h : ∀ x ∈ rows, x.property_id ∈ seen) : dropDupAux seen rows = [] := by
  induction rows with
  | nil => rfl
  | cons r rs ih =>
    unfold dropDupAux
    rw [if_pos (h r (List.mem_cons_self r rs))]
    exact ih (fun x hx => h x (List.mem_cons_of_mem r hx))

lemma dropDupAux_nodup (seen : List Val) (rows : List Row) :
    ((dropDupAux seen rows).map Row.property_id).Nodup ∧
      ∀ v ∈ (dropDupAux seen rows).map Row.property_id, v ∉ seen := by
  induction rows generalizing seen with
  | nil => simp [dropDupAux]
  | cons r rs ih =>
    unfold dropDupAux
    by_cases hc : r.property_id ∈ seen
    · rw [if_pos hc]
      exact ih seen
    · rw [if_neg hc]
      obtain ⟨hnd, hout⟩ := ih (r.property_id :: seen)
      refine ⟨List.nodup_cons.mpr ⟨fun hmem => ?_, hnd⟩, ?_⟩
      · exact (hout _ hmem) (List.mem_cons_self _ _)
      · intro v hv
        rcases List.mem_cons.mp hv with hv | hv
        · rw [hv]; exact hc
        · exact fun hvs => (hout v hv) (List.mem_cons_of_mem _ hvs)

lemma mapOption_mem {f : α → Option β} {l : List α} {out : List β} {b : β}
    (h : mapOption f l = some out) (hb : b ∈ out) : ∃ a ∈ l, f a = some b := by
  induction l generalizing out with
  | nil =>
    unfold mapOption at h
    cases h
    cases hb
  | cons a as ih =>
    unfold mapOption at h
    cases hfa : f a with
    | none => rw [hfa] at h; cases h
    | some b0 =>
      rw [hfa] at h
      cases hrest : mapOption f as with
      | none => rw [hrest] at h; cases h
      | some bs =>
        rw [hrest] at h
        cases h
        rcases List.mem_cons.mp hb with hb | hb
        · exact ⟨a, List.mem_cons_self a as, by rw [hfa, hb]⟩
        · obtain ⟨a1, ha1, hfa1⟩ := ih hrest hb
          exact ⟨a1, List.mem_cons_of_mem a ha1, hfa1⟩

lemma mapOption_map_eq {f : α → Option β} {g : α → γ} {g' : β → γ}
    (hf : ∀ a b, f a = some b → g' b = g a) {l : List α} {out : List β}
    (h : mapOption f l = some out) : out.map g' = l.map g := by
  induction l generalizing out with
  | nil =>
    unfold mapOption at h
    cases h
    rfl
  | cons a as ih =>
    unfold mapOption at h
    cases hfa : f a with
    | none => rw [hfa] at h; cases h
    | some b0 =>
      rw [hfa] at h
      cases hrest : mapOption f as with
      | none => rw [hrest] at h; cases h
      | some bs =>
        rw [hrest] at h
        cases h
        simp only [List.map_cons]
        rw [hf a b0 hfa, ih hrest]

lemma step3Row_some {r r' : Row} (h : step3Row r = some r') :
    ∃ pc, astype_Int64_str r.postal_code = some pc ∧
      r' = { r with
        price := to_numeric_cell r.price
        living_area := to_numeric_cell r.living_area
        number_rooms := to_numeric_cell r.number_rooms
        facades := to_numeric_cell r.facades
        postal_code := pc } := by
  unfold step3Row at h
  cases hpc : astype_Int64_str r.postal_code with
  | none => rw [hpc] at h; cases h
  | some pc =>
    rw [hpc] at h
    cases h
    exact ⟨pc, rfl, rfl⟩

lemma clean_eq_some {dt : Dtypes} {rows out : List Row}
    (h : clean_immo_data dt rows = some out) :
    ∃ r3, mapOption step3Row (drop_duplicates (rows.map (step1Row dt))) = some r3 ∧
      out = step67 ((step4 r3).map step5Row) := by
  unfold clean_immo_data at h
  obtain ⟨r3, h3, hout⟩ := Option.map_eq_some'.mp h
  exact ⟨r3, h3, hout.symm⟩

lemma mem_step4 {rows : List Row} {r : Row} (h : r ∈ step4 rows) :
    r.province.isNull = false ∧ r.province ≠ Val.str "" ∧
      ∃ r0 ∈ rows, r = { r0 with province := provinceReplaceEmpty r0.province } := by
  unfold step4 at h
  obtain ⟨hmem, hpred⟩ := List.mem_filter.mp h
  obtain ⟨r0, hr0, heq⟩ := List.mem_map.mp hmem
  rw [Bool.not_eq_true'] at hpred
  refine ⟨hpred, ?_, r0, hr0, heq.symm⟩
  have hpv : r.province = provinceReplaceEmpty r0.province := by rw [← heq]
  rw [hpv]
  unfold provinceReplaceEmpty
  by_cases hc : r0.province = Val.str ""
  · rw [if_pos hc]
    intro hcon
    cases hcon
  · rw [if_neg hc]
    exact hc

/-- The stages after deduplication map rows pointwise and filter: any field
they do not rewrite survives as a sublist of its column. -/
lemma tail_stages_map_sublist {γ : Type} (f : Row → γ)
    (hf3 : ∀ r r', step3Row r = some r' → f r' = f r)
    {l2 r3 : List Row} (h3 : mapOption step3Row l2 = some r3)
    (hf4 : ∀ r, f { r with province := provinceReplaceEmpty r.province } = f r)
    (hf5 : ∀ r, f (step5Row r) = f r)
    (hfS : ∀ r p a, f (setPriceArea r p a) = f r) :
    List.Sublist ((step67 ((step4 r3).map step5Row)).map f) (l2.map f) := by
  have e3 : r3.map f = l2.map f := mapOption_map_eq hf3 h3
  have s4 : List.Sublist ((step4 r3).map f) (r3.map f) := by
    unfold step4
    have hs := List.Sublist.map f (List.filter_sublist
      (l := r3.map (fun r => { r with province := provinceReplaceEmpty r.province }))
      (p := fun r => !r.province.isNull))
    rw [List.map_map] at hs
    have heq : r3.map (f ∘ fun r => { r with province := provinceReplaceEmpty r.province }) =
        r3.map f := List.map_congr_left (fun r _ => hf4 r)
    rw [heq] at hs
    exact hs
  have s5 : ((step4 r3).map step5Row).map f = (step4 r3).map f := by
    rw [List.map_map]
    exact List.map_congr_left (fun r _ => hf5 r)
  have s67 : List.Sublist ((step67 ((step4 r3).map step5Row)).map f)
      (((step4 r3).map step5Row).map f) := by
    rw [step67_eq]
    have hs := List.Sublist.map f (List.filter_sublist
      (l := ((step4 r3).map step5Row).map (fun r =>
        setPriceArea r (clip (((step4 r3).map step5Row).map Row.price) r.price)
          (clip (((step4 r3).map step5Row).map Row.living_area) r.living_area)))
      (p := fun r => !r.price.isNull && !r.living_area.isNull))
    have heq : (((step4 r3).map step5Row).map (fun r =>
        setPriceArea r (clip (((step4 r3).map step5Row).map Row.price) r.price)
          (clip (((step4 r3).map step5Row).map Row.living_area) r.living_area))).map f =
        ((step4 r3).map step5Row).map f := by
      rw [List.map_map]
      exact List.map_congr_left (fun r _ => hfS r _ _)
    rw [heq] at hs
    exact hs
  rw [s5] at s67
  rw [← e3]
  exact s67.trans s4

/-- C1 (counterexample): the claim says every input row with a null or
empty province is absent from the output.  Concretely, a single input row
(pandas index 0) whose province is null in an object-dtype province column
survives the whole pipeline: step 1 rewrites the null to the literal
string "nan", so the province filter keeps the row and it appears in the
output. -/
theorem c1_counterexample :
    clean_immo_data { dt0 with province := true } [{ row0 with province := Val.null }] =
      some [{ row0 with province := Val.str "nan", postal_code := Val.str "<NA>", price_per_m2 := Val.num 2 }] := by
  decide

/-- C1 (amended): every row of the output table has a province that is
neither null nor the empty string.  (The half of the claim removing every
null-province input row fails when the province column has object dtype:
step 1 turns such nulls into the literal string "nan" and the row is
kept.) -/
theorem c1_theorem (dt : Dtypes) (rows out : List Row) (r : Row)
    (h : clean_immo_data dt rows = some out) (hr : r ∈ out) :
    r.province ≠ Val.null ∧ r.province ≠ Val.str "" := by
  obtain ⟨r3, h3, rfl⟩ := clean_eq_some h
  have hm := mem_step67 hr
  obtain ⟨r4, hr4, heq⟩ := List.mem_map.mp hm.1
  have hprov : r.province = r4.province := by rw [← heq]; rfl
  obtain ⟨hnull, hne, _⟩ := mem_step4 hr4
  rw [hprov]
  exact ⟨(isNull_eq_false_iff r4.province).mp hnull, hne⟩

/-- C1 witness: the amended theorem applied to a concrete one-row run. -/
theorem c1_witness :
    ({ row0 with postal_code := Val.str "<NA>", price_per_m2 := Val.num 2 } : Row).province ≠
        Val.null ∧
      ({ row0 with postal_code := Val.str "<NA>", price_per_m2 := Val.num 2 } : Row).province ≠
        Val.str "" :=
  c1_theorem dt0 [row0]
    [{ row0 with postal_code := Val.str "<NA>", price_per_m2 := Val.num 2 }]
    { row0 with postal_code := Val.str "<NA>", price_per_m2 := Val.num 2 }
    (by decide) (by decide)

/-- C2 (counterexample): the claim says price_per_m2 is null whenever
living_area is zero and that no infinity is ever produced.  Concretely, a
row with price 100 and living_area 0 survives the pipeline and its
price_per_m2 is positive infinity (float division 100/0), not a null
marker. -/
theorem c2_counterexample :
    clean_immo_data dt0 [{ row0 with living_area := Val.num 0 }] =
      some [{ row0 with living_area := Val.num 0, postal_code := Val.str "<NA>", price_per_m2 := Val.inf true }] := by
  decide

/-- C2 (amended): the division producing price_per_m2 never raises; it
yields a null marker when either operand is null and in the 0/0 case, the
exact quotient when the denominator is nonzero, and a signed infinity
(sign of the numerator) when the denominator is zero and the numerator is
not. -/
theorem c2_theorem (p a : ℚ) :
    valDiv Val.null (Val.num a) = Val.null ∧
      valDiv (Val.num p) Val.null = Val.null ∧
      valDiv Val.null Val.null = Val.null ∧
      (a ≠ 0 → valDiv (Val.num p) (Val.num a) = Val.num (p / a)) ∧
      (p = 0 → valDiv (Val.num p) (Val.num 0) = Val.null) ∧
      (p ≠ 0 → valDiv (Val.num p) (Val.num 0) = Val.inf (decide (0 < p))) := by
  refine ⟨rfl, rfl, rfl, ?_, ?_, ?_⟩
  · intro ha
    simp only [valDiv]
    rw [if_neg ha]
  · intro hp
    subst hp
    simp [valDiv]
  · intro hp
    simp only [valDiv, if_pos]
    rw [if_neg hp]

/-- C2 witness: the amended theorem applied at concrete operands. -/
theorem c2_witness :
    valDiv (Val.num 100) (Val.num 0) = Val.inf true ∧ valDiv Val.null (Val.num 50) = Val.null := by
  constructor
  · have h := (c2_theorem 100 0).2.2.2.2.2 (by decide)
    exact h.trans (by decide)
  · exact (c2_theorem 0 50).1

/-- C9 (counterexample): the claim says that after the first step no text
column contains a true null.  Concretely, a province cell holding the
empty string in an object-dtype column is a true null right after step 1
(astype(str).strip().replace turns it into NaN). -/
theorem c9_counterexample :
    (step1Row { dt0 with province := true } { row0 with province := Val.str "" }).province =
      Val.null := by
  decide

/-- C9 (amended): in an object-dtype column, step 1 rewrites every null
cell to the non-null literal string "nan"; a string cell becomes a true
null exactly when it strips to the empty string, and otherwise becomes its
stripped text.  So after step 1 the nulls of a text column are exactly the
originally empty-or-whitespace values, while original nulls now read as
the string "nan" for all downstream null checks. -/
theorem c9_theorem (s : String) :
    cleanStrCell Val.null = Val.str "nan" ∧
      (pyStrip s = "" → cleanStrCell (Val.str s) = Val.null) ∧
      (pyStrip s ≠ "" → cleanStrCell (Val.str s) = Val.str (pyStrip s)) := by
  refine ⟨by decide, ?_, ?_⟩
  · intro h
    unfold cleanStrCell str_of_val
    rw [h]
    rfl
  · intro h
    unfold cleanStrCell str_of_val
    rw [if_neg h]

/-- C9 witness: the amended theorem applied at concrete strings. -/
theorem c9_witness :
    cleanStrCell (Val.str "  Liege  ") = Val.str "Liege" ∧
      cleanStrCell (Val.str "   ") = Val.null := by
  constructor
  · have h := (c9_theorem ("  Liege  ")).2.2 (by decide)
    exact h.trans (by decide)
  · exact (c9_theorem ("   ")).2.1 (by decide)

/-- C4 (confirmed): drop_duplicates retains exactly the first row carrying
each property_id value in input order and drops every later row with the
same value; the result is a sublist of the input, so all other rows pass
through unchanged and in order.  keepFirsts is the specification-side
restatement (keep the head, drop every later row sharing its key,
recurse). -/
theorem c4_theorem (rows : List Row) :
    drop_duplicates rows = keepFirsts rows ∧ List.Sublist (drop_duplicates rows) rows := by
  constructor
  · unfold drop_duplicates
    rw [dropDupAux_eq_keepFirsts]
    congr 1
    have h : rows.filter (fun x => decide (x.property_id ∉ ([] : List Val))) =
        rows.filter (fun _ => true) := by
      apply List.filter_congr
      intro x _
      simp
    rw [h, List.filter_true]
  · exact dropDupAux_sublist [] rows

/-- C5 (counterexample): the claim says every row whose property_id is
null is kept by deduplication.  Concretely, of two rows with null
property_id (pandas hashes NaN keys equal), only the first survives
drop_duplicates; the second is dropped. -/
theorem c5_counterexample :
    drop_duplicates [{ row0 with property_id := Val.null },
        { row0 with index := 1, property_id := Val.null }] =
      [{ row0 with property_id := Val.null }] := by
  decide

/-- C5 (amended): null property_id keys are treated as equal to one
another by drop_duplicates, so of any table whose rows all carry a null
identifier only the first row survives; no error is raised (the function
is total). -/
theorem c5_theorem (rows : List Row) (h : ∀ r ∈ rows, r.property_id = Val.null) :
    drop_duplicates rows = rows.take 1 := by
  cases rows with
  | nil => rfl
  | cons r rs =>
    unfold drop_duplicates dropDupAux
    rw [if_neg (List.not_mem_nil r.property_id)]
    have hnil : dropDupAux [r.property_id] rs = [] := by
      apply dropDupAux_eq_nil
      intro x hx
      rw [h x (List.mem_cons_of_mem r hx), h r (List.mem_cons_self r rs)]
      exact List.mem_cons_self _ _
    rw [hnil]
    rfl

/-- C5 witness: the amended theorem applied to a concrete two-row table
with null identifiers. -/
theorem c5_witness :
    drop_duplicates [{ row0 with property_id := Val.null },
        { row0 with index := 1, property_id := Val.null }] =
      [{ row0 with property_id := Val.null },
        { row0 with index := 1, property_id := Val.null }].take 1 :=
  c5_theorem _ (by decide)

/-- C6 (counterexample): the claim says the text postal code "1000.0"
normalizes to "1000" without error.  Concretely, when the postal_code
column has object dtype and holds the string "1000.0", the
astype(Int64) cast raises (int() does not accept a decimal point) and the
whole pipeline call fails. -/
theorem c6_counterexample :
    clean_immo_data { dt0 with postal_code := true }
      [{ row0 with postal_code := Val.str "1000.0" }] = none := by
  decide

/-- C6 (amended): a postal code that reaches the cast as the numeric value
1000.0 (a float column, the read_csv inference for numeric-looking text)
is normalized to the text "1000" without error: every integral float
postal code becomes the decimal string of its integer value.  A text cell
"1000.0" in an object-dtype column instead makes the cast raise. -/
theorem c6_theorem (q : ℚ) (h : q.den = 1) :
    astype_Int64_str (Val.num q) = some (Val.str (toString q.num)) := by
  simp only [astype_Int64_str]
  rw [if_pos h]

/-- C6 witness: the amended theorem applied at the numeric value 1000. -/
theorem c6_witness : astype_Int64_str (Val.num 1000) = some (Val.str "1000") := by
  have h := c6_theorem 1000 (by decide)
  exact h.trans (by decide)

lemma filter_notNull_idem (vals : List Val) :
    (vals.filter (fun v => !v.isNull)).filter (fun v => !v.isNull) =
      vals.filter (fun v => !v.isNull) := by
  rw [List.filter_filter]
  apply List.filter_congr
  intro x _
  simp [Bool.and_self]

lemma quantileV_filter (q : ℚ) (vals : List Val) :
    quantileV q (vals.filter (fun v => !v.isNull)) = quantileV q vals := by
  unfold quantileV
  rw [filter_notNull_idem]

lemma vLeB_num_num (lo q : ℚ) : vLeB (Val.num lo) (Val.num q) = decide (lo ≤ q) := rfl

/-- C3 (confirmed): the IQR filter is column-length preserving; its fences
are computed from the non-null values only (filtering the nulls out first
changes neither fence); an already-null cell stays null; a numeric cell
passes through unchanged exactly when it lies inside the inclusive fences
and is replaced by a null marker when strictly outside; and every row
surviving steps 6 and 7 was judged against fences computed over the whole
table that entered step 6, before any row removal. -/
theorem c3_theorem (vals : List Val) (rows : List Row) :
    (remove_outliers vals).length = vals.length ∧
      (iqrLower (vals.filter (fun v => !v.isNull)) = iqrLower vals ∧
        iqrUpper (vals.filter (fun v => !v.isNull)) = iqrUpper vals) ∧
      (∀ i : Nat, vals[i]? = some Val.null → (remove_outliers vals)[i]? = some Val.null) ∧
      (∀ (i : Nat) (q lo hi : ℚ), vals[i]? = some (Val.num q) →
        iqrLower vals = Val.num lo → iqrUpper vals = Val.num hi →
        (remove_outliers vals)[i]? =
          some (if lo ≤ q ∧ q ≤ hi then Val.num q else Val.null)) ∧
      (∀ r ∈ step67 rows,
        (vLeB (iqrLower (rows.map Row.price)) r.price &&
          vLeB r.price (iqrUpper (rows.map Row.price))) = true ∧
        (vLeB (iqrLower (rows.map Row.living_area)) r.living_area &&
          vLeB r.living_area (iqrUpper (rows.map Row.living_area))) = true) := by
  refine ⟨?_, ⟨?_, ?_⟩, ?_, ?_, ?_⟩
  · simp [remove_outliers]
  · simp only [iqrLower, quantileV_filter]
  · simp only [iqrUpper, quantileV_filter]
  · intro i hv
    simp only [remove_outliers]
    rw [List.getElem?_map, hv]
    simp [clip_null]
  · intro i q lo hi hv hlo hhi
    simp only [remove_outliers]
    rw [List.getElem?_map, hv]
    have hb : (vLeB (iqrLower vals) (Val.num q) && vLeB (Val.num q) (iqrUpper vals)) =
        decide (lo ≤ q ∧ q ≤ hi) := by
      rw [hlo, hhi, vLeB_num_num, vLeB_num_num, Bool.and_eq_decide]
    simp only [Option.map_some', clip, hb]
    simp [decide_eq_true_eq]
  · intro r hr
    have hm := mem_step67 hr
    exact ⟨hm.2.2.2.1, hm.2.2.2.2⟩

/-- C3 witness: the theorem applied to the concrete price column of the
spec (section 8): values 100000, 105000, 110000, 1000000 give fences
-239375 and 675625, so 1000000 is nulled as an outlier and 105000 passes
through unchanged. -/
theorem c3_witness :
    (remove_outliers [Val.num 100000, Val.num 105000, Val.num 110000, Val.num 1000000])[3]? =
        some Val.null ∧
      (remove_outliers [Val.num 100000, Val.num 105000, Val.num 110000, Val.num 1000000])[1]? =
        some (Val.num 105000) := by
  have h := (c3_theorem [Val.num 100000, Val.num 105000, Val.num 110000, Val.num 1000000]
    []).2.2.2.1
  constructor
  · have h3 := h 3 1000000 (-239375) 675625 (by decide) (by decide) (by decide)
    exact h3.trans (by decide)
  · have h1 := h 1 105000 (-239375) 675625 (by decide) (by decide) (by decide)
    exact h1.trans (by decide)

lemma valDiv_num_num (p a : ℚ) :
    valDiv (Val.num p) (Val.num a) =
      if a = 0 then (if p = 0 then Val.null else Val.inf (decide (0 < p)))
      else Val.num (p / a) := by
  simp only [valDiv]

/-- C7 (counterexample): the claim says price_per_m2 is never null in the
output.  Concretely, a row with price 0 and living_area 0 survives the
pipeline (0 lies inside the degenerate fences of both columns) and its
price_per_m2 is the null marker, since float 0/0 is NaN. -/
theorem c7_counterexample :
    clean_immo_data dt0 [{ row0 with price := Val.num 0, living_area := Val.num 0 }] =
      some [{ row0 with price := Val.num 0, living_area := Val.num 0, postal_code := Val.str "<NA>", price_per_m2 := Val.null }] := by
  decide

/-- C7 (amended): for every output row, price_per_m2 equals the float
division of the post-filter price by the post-filter living_area, both of
which are non-null; for numeric operands the result is null exactly in the
0/0 case (so it is non-null whenever price and living_area are not both
zero). -/
theorem c7_theorem (dt : Dtypes) (rows out : List Row) (r : Row)
    (h : clean_immo_data dt rows = some out) (hr : r ∈ out) :
    r.price_per_m2 = valDiv r.price r.living_area ∧
      r.price.isNull = false ∧ r.living_area.isNull = false ∧
      (∀ p a : ℚ, r.price = Val.num p → r.living_area = Val.num a →
        (r.price_per_m2 = Val.null ↔ p = 0 ∧ a = 0)) := by
  obtain ⟨r3, h3, rfl⟩ := clean_eq_some h
  have hm := mem_step67 hr
  obtain ⟨r4, hr4, heq⟩ := List.mem_map.mp hm.1
  have hppm : r.price_per_m2 = valDiv r.price r.living_area := by
    rw [← heq]
    rfl
  refine ⟨hppm, hm.2.1, hm.2.2.1, ?_⟩
  intro p a hp ha
  rw [hppm, hp, ha, valDiv_num_num]
  by_cases ha0 : a = 0
  · subst ha0
    rw [if_pos rfl]
    by_cases hp0 : p = 0
    · rw [if_pos hp0]
      simp [hp0]
    · rw [if_neg hp0]
      simp [hp0]
  · rw [if_neg ha0]
    simp [ha0]

/-- C7 witness: the amended theorem applied to a concrete one-row run with
price 100 and living_area 50. -/
theorem c7_witness :
    ({ row0 with postal_code := Val.str "<NA>", price_per_m2 := Val.num 2 } : Row).price_per_m2 =
        valDiv ({ row0 with postal_code := Val.str "<NA>", price_per_m2 := Val.num 2 } : Row).price
          ({ row0 with postal_code := Val.str "<NA>", price_per_m2 := Val.num 2 } : Row).living_area ∧
      ({ row0 with postal_code := Val.str "<NA>", price_per_m2 := Val.num 2 } : Row).price.isNull =
        false := by
  have h := c7_theorem dt0 [row0]
    [{ row0 with postal_code := Val.str "<NA>", price_per_m2 := Val.num 2 }]
    { row0 with postal_code := Val.str "<NA>", price_per_m2 := Val.num 2 }
    (by decide) (by decide)
  exact ⟨h.1, h.2.1⟩

/-- C8 (confirmed): the property_id values of the output table are
pairwise distinct: deduplication leaves a table whose keys have no
duplicate, and every later stage only removes rows or rewrites fields
other than property_id, so the output key list is a duplicate-free
sublist of the deduplicated key list. -/
theorem c8_theorem (dt : Dtypes) (rows out : List Row)
    (h : clean_immo_data dt rows = some out) :
    (out.map Row.property_id).Nodup ∧
      List.Sublist (out.map Row.property_id)
        ((drop_duplicates (rows.map (step1Row dt))).map Row.property_id) := by
  obtain ⟨r3, h3, rfl⟩ := clean_eq_some h
  have hsub := tail_stages_map_sublist Row.property_id
    (fun r r' hr => by
      obtain ⟨pc, _, hre⟩ := step3Row_some hr
      rw [hre])
    h3 (fun r => rfl) (fun r => rfl) (fun r p a => rfl)
  have hnd := (dropDupAux_nodup [] (rows.map (step1Row dt))).1
  exact ⟨List.Nodup.sublist hsub hnd, hsub⟩

/-- C8 witness: the theorem applied to a concrete one-row run. -/
theorem c8_witness :
    (([{ row0 with postal_code := Val.str "<NA>", price_per_m2 := Val.num 2 }] : List Row).map
      Row.property_id).Nodup :=
  (c8_theorem dt0 [row0]
    [{ row0 with postal_code := Val.str "<NA>", price_per_m2 := Val.num 2 }] (by decide)).1

/-- C10 (confirmed): the pipeline preserves input order.  The pandas index
labels of the output rows form a sublist of the input label sequence, and
when the input labels are strictly increasing (as read_csv produces them)
the output labels are strictly increasing as well: every stage removes
rows or rewrites fields, none reorders. -/
theorem c10_theorem (dt : Dtypes) (rows out : List Row)
    (h : clean_immo_data dt rows = some out) :
    List.Sublist (out.map Row.index) (rows.map Row.index) ∧
      (List.Pairwise (· < ·) (rows.map Row.index) →
        List.Pairwise (· < ·) (out.map Row.index)) := by
  obtain ⟨r3, h3, rfl⟩ := clean_eq_some h
  have hsub := tail_stages_map_sublist Row.index
    (fun r r' hr => by
      obtain ⟨pc, _, hre⟩ := step3Row_some hr
      rw [hre])
    h3 (fun r => rfl) (fun r => rfl) (fun r p a => rfl)
  have h2 : List.Sublist ((drop_duplicates (rows.map (step1Row dt))).map Row.index)
      ((rows.map (step1Row dt)).map Row.index) :=
    List.Sublist.map Row.index (dropDupAux_sublist [] (rows.map (step1Row dt)))
  have h1 : (rows.map (step1Row dt)).map Row.index = rows.map Row.index := by
    rw [List.map_map]
    exact List.map_congr_left (fun r _ => rfl)
  rw [h1] at h2
  have hall := hsub.trans h2
  exact ⟨hall, fun hp => List.Pairwise.sublist hall hp⟩

/-- C10 witness: the theorem applied to a concrete one-row run. -/
theorem c10_witness :
    List.Sublist
        (([{ row0 with postal_code := Val.str "<NA>", price_per_m2 := Val.num 2 }] : List Row).map
          Row.index)
        (([row0] : List Row).map Row.index) ∧
      List.Pairwise (· < ·)
        (([{ row0 with postal_code := Val.str "<NA>", price_per_m2 := Val.num 2 }] : List Row).map
          Row.index) := by
  have h := c10_theorem dt0 [row0]
    [{ row0 with postal_code := Val.str "<NA>", price_per_m2 := Val.num 2 }] (by decide)
  exact ⟨h.1, h.2 (by simp)⟩

end ImmoClean
